import Mathlib

/-!
Shallow embedding of the bulk-analysis orchestrator of the newosliraworker
repository, centred on `src/api/analysis/bulk-analyze.controller.ts`,
`src/domain/ai/prompts.ts` and `src/domain/analysis/direct-analysis.service.ts`.

External collaborators (the Instagram scraper, the AI adapter, the Supabase
repository and the platform `JSON.parse` / `fetch` primitives) are modelled as
oracle functions carried in environment records; everything that is repository
logic is translated function-by-function from the TypeScript source.
Machine numbers: profile counts are nonnegative integers (`Nat`), credit
balances are integers (`Int`), and provider dollar costs are exact rationals
(`Rat`); all quantities the claims touch are integers, where the JS `number`
semantics coincides with exact arithmetic.
-/

namespace Oslira

/-- Normalized profile attributes returned by the scraper
(`ProfileData` in `src/shared/types`).  `latestPosts` and `engagement` feed
only prompt text that no verified function inspects, so they are omitted. -/
structure ProfileData where
  username : String
  displayName : String
  bio : String
  followersCount : Nat
  followingCount : Nat
  postsCount : Nat
  isVerified : Bool
  isPrivate : Bool
  profilePicUrl : String
  externalUrl : String
  scraperUsed : Option String
  dataQuality : Option String
deriving Repr, DecidableEq

/-- Result of the pre-screen gate (`PreScreenResult` in
`src/domain/ai/prompts.ts`). -/
structure PreScreenResult where
  shouldProcess : Bool
  earlyScore : Option Nat
  reason : Option String
deriving Repr, DecidableEq

/-- Mirror of `preScreenProfile` in `src/domain/ai/prompts.ts`.

The source computes `followRatio = followersCount / followingCount` as a JS
float (999 when `followingCount` is 0) and tests `followRatio < 0.1`.  For the
integer counts the scraper supplies (far below 2^53) the float comparison
agrees exactly with the rational test `followersCount / followingCount < 1/10`,
i.e. `10 * followersCount < followingCount`; the 999 placeholder is never
below 0.1, which the `0 < followingCount` conjunct mirrors.  The `business`
argument of the source is unused by the gate and dropped here. -/
def preScreenProfile (profile : ProfileData) : PreScreenResult :=
  if profile.isPrivate ∧ profile.followersCount < 1000 then
    { shouldProcess := false
      earlyScore := some 15
      reason := some "Private account with low followers - no analysis possible" }
  else if profile.followersCount = 0 then
    { shouldProcess := false
      earlyScore := some 0
      reason := some "Account has no followers" }
  else if 0 < profile.followingCount ∧ 10 * profile.followersCount < profile.followingCount
      ∧ 1000 < profile.followersCount then
    { shouldProcess := false
      earlyScore := some 20
      reason := some "Suspicious follow ratio indicates bot/spam account" }
  else
    { shouldProcess := true, earlyScore := none, reason := none }

/-! ## Lenient fallback decode

`DirectAnalysisExecutor.parseJsonResponse` recovers from a failed strict
`JSON.parse` with the two regexes
`/"overall_score":\s*(\d+)/` and `/"summary_text":\s*"([^"]+)"/`.
They are embedded as left-to-right scanners over the character list; JS
`String.match` without the global flag returns the leftmost match, and since
the character classes of adjacent regex pieces are disjoint, maximal-munch
scanning is exactly the regex semantics. -/

/-- Character class of the JS regex `\s` (ECMAScript WhiteSpace plus
LineTerminator). -/
def isJsWhitespace (c : Char) : Bool :=
  c == ' ' || c == '\t' || c == '\n' || c.toNat == 0x0B || c.toNat == 0x0C || c == '\r' ||
  c.toNat == 0xA0 || c.toNat == 0x1680 ||
  (decide (0x2000 ≤ c.toNat) && decide (c.toNat ≤ 0x200A)) ||
  c.toNat == 0x2028 || c.toNat == 0x2029 || c.toNat == 0x202F ||
  c.toNat == 0x205F || c.toNat == 0x3000 || c.toNat == 0xFEFF

/-- Value of a nonempty run of decimal digits, as computed by JS `parseInt`
on the capture of `(\d+)`. -/
def digitsToNat (ds : List Char) : Nat :=
  ds.foldl (fun n c => 10 * n + (c.toNat - '0'.toNat)) 0

/-- Attempt of the score regex anchored at the head of `cs`:
the literal `"overall_score":`, then `\s*`, then a nonempty digit run. -/
def matchScoreAt (cs : List Char) : Option Nat :=
  let pat := "\"overall_score\":".toList
  if pat.isPrefixOf cs then
    let afterColon := (cs.drop pat.length).dropWhile isJsWhitespace
    let digits := afterColon.takeWhile Char.isDigit
    if digits.isEmpty then none else some (digitsToNat digits)
  else none

/-- Leftmost match of `/"overall_score":\s*(\d+)/`, as
`content.match(...)` finds it. -/
def firstScoreMatch : List Char → Option Nat
  | [] => none
  | c :: cs =>
    match matchScoreAt (c :: cs) with
    | some n => some n
    | none => firstScoreMatch cs

/-- Attempt of the summary regex anchored at the head of `cs`:
the literal `"summary_text":`, then `\s*`, then a double-quoted nonempty run
of non-quote characters.  The capture is the run between the quotes. -/
def matchSummaryAt (cs : List Char) : Option String :=
  let pat := "\"summary_text\":".toList
  if pat.isPrefixOf cs then
    match (cs.drop pat.length).dropWhile isJsWhitespace with
    | '"' :: rest =>
      let captured := rest.takeWhile (fun c => c != '"')
      if captured.isEmpty then none
      else
        match rest.dropWhile (fun c => c != '"') with
        | '"' :: _ => some (String.mk captured)
        | _ => none
    | _ => none
  else none

/-- Leftmost match of `/"summary_text":\s*"([^"]+)"/`. -/
def firstSummaryMatch : List Char → Option String
  | [] => none
  | c :: cs =>
    match matchSummaryAt (c :: cs) with
    | some s => some s
    | none => firstSummaryMatch cs

/-- Shape the executor reads off the decoded provider output
(`analysisData` projection of the parsed object). -/
structure AnalysisData where
  overall_score : Int
  summary_text : String
deriving Repr, DecidableEq

/-- Mirror of `DirectAnalysisExecutor.parseJsonResponse` in
`src/domain/analysis/direct-analysis.service.ts`.  `strictParse` stands for
the platform primitive `JSON.parse(content.trim())` together with the
subsequent field projection: `some` when the strict decode succeeds, `none`
when `JSON.parse` throws.  On strict failure the fallback extraction runs the
two regexes over the raw `content`; a missing score match defaults to 0 and a
missing summary match defaults to "Analysis completed".  The function is
total: no failure of either stage escapes to the caller. -/
def parseJsonResponse (strictParse : String → Option AnalysisData)
    (content : String) : AnalysisData :=
  match strictParse content with
  | some parsed => parsed
  | none =>
    { overall_score :=
        match firstScoreMatch content.toList with
        | some n => (n : Int)
        | none => 0
      summary_text := (firstSummaryMatch content.toList).getD "Analysis completed" }

/-! ## Direct analysis executor and the per-profile bulk pipeline -/

/-- Slice of the AI adapter response that `executeLight` consumes. -/
structure AIResponse where
  content : String
  total_cost : Rat
  input_tokens : Nat
  output_tokens : Nat
  model_used : String
deriving Repr, DecidableEq

/-- Cost block of `DirectAnalysisResult`
(`processing_duration_ms` is wall-clock time and not modelled). -/
structure CostDetails where
  actual_cost : Rat
  tokens_in : Nat
  tokens_out : Nat
  model_used : String
  block_type : String
deriving Repr, DecidableEq

/-- Mirror of `DirectAnalysisResult` in
`src/domain/analysis/direct-analysis.service.ts`. -/
structure DirectAnalysisResult where
  analysisData : AnalysisData
  costDetails : CostDetails
deriving Repr, DecidableEq

/-- Observable side effects of one bulk request.  `pause` is the
`setTimeout(..., 1000)` between windows; `userFetch` is the joint
`fetchUserAndCredits` / `fetchBusinessProfile` lookup. -/
inductive Ev where
  | scrapeCall (username : String)
  | aiCall (username : String)
  | pause
  | increment (username : String)
  | debit
  | userFetch
deriving Repr, DecidableEq

/-- Oracles for the external collaborators the per-profile pipeline awaits.
`Except.error` models a rejected promise carrying `error.message`.
`extractUsername` lives in `src/shared/utils/validation.util.ts`, which is not
part of the sources; it is kept fully abstract. -/
structure PipelineEnv where
  extractUsername : String → Except String String
  scrape : String → Except String ProfileData
  aiCall : ProfileData → Except String AIResponse
  jsonParse : String → Option AnalysisData
  now : Nat

/-- Mirror of `DirectAnalysisExecutor.executeLight`: one AI adapter request,
then the two-stage decode of its `content`.  The adapter call is the only
fallible step; its rejection is re-thrown, every decode outcome is returned
as a success.  The event records that the ScoringProvider was invoked. -/
def executeLight (env : PipelineEnv) (profile : ProfileData) :
    Except String DirectAnalysisResult × List Ev :=
  match env.aiCall profile with
  | .error e => (.error e, [Ev.aiCall profile.username])
  | .ok response =>
    let analysisData := parseJsonResponse env.jsonParse response.content
    (.ok
      { analysisData :=
          { overall_score := analysisData.overall_score
            summary_text := analysisData.summary_text }
        costDetails :=
          { actual_cost := response.total_cost
            tokens_in := response.input_tokens
            tokens_out := response.output_tokens
            model_used := response.model_used
            block_type := "direct_light" } },
      [Ev.aiCall profile.username])

/-- JS `a || b` on an optional string field: the default is used when the
field is absent or the empty string. -/
def jsOrString (v : Option String) (dflt : String) : String :=
  match v with
  | some s => if s = "" then dflt else s
  | none => dflt

/-- Profile block of the per-profile response. -/
structure ProfileBlock where
  username : String
  displayName : String
  followersCount : Nat
  isVerified : Bool
  profilePicUrl : String
  dataQuality : String
  scraperUsed : String
deriving Repr, DecidableEq

/-- Analysis block of the per-profile response. -/
structure AnalysisBlock where
  overall_score : Int
  summary_text : String
  type : String
deriving Repr, DecidableEq

/-- Credits block of the per-profile response. -/
structure CreditsBlock where
  used : Nat
  remaining : Int
  actual_cost : Rat
deriving Repr, DecidableEq

/-- Per-profile success payload (`AnalysisResponse` in the shared types;
the constant `metadata` block is not modelled). -/
structure AnalysisResponse where
  run_id : String
  profile : ProfileBlock
  analysis : AnalysisBlock
  credits : CreditsBlock
deriving Repr, DecidableEq

/-- Mirror of `processProfileComplete` in
`src/api/analysis/bulk-analyze.controller.ts`: extract the username, scrape,
reject non-light modes, run the direct light analysis, and shape the
response.  Note that no pre-screen gate appears anywhere on this path: the
fetched attributes flow straight into `executeLight`. -/
def processProfileComplete (env : PipelineEnv) (analysisType : String)
    (profileUrl : String) : Except String AnalysisResponse × List Ev :=
  match env.extractUsername profileUrl with
  | .error e => (.error e, [])
  | .ok username =>
    match env.scrape username with
    | .error e => (.error e, [Ev.scrapeCall username])
    | .ok profileData =>
      if analysisType ≠ "light" then
        (.error "Only \"light\" analysis is supported", [Ev.scrapeCall username])
      else
        let ex := executeLight env profileData
        match ex.1 with
        | .error e => (.error e, Ev.scrapeCall username :: ex.2)
        | .ok directResult =>
          (.ok
            { run_id := "bulk-" ++ toString env.now ++ "-" ++ username
              profile :=
                { username := profileData.username
                  displayName := profileData.displayName
                  followersCount := profileData.followersCount
                  isVerified := profileData.isVerified
                  profilePicUrl := profileData.profilePicUrl
                  dataQuality := jsOrString profileData.dataQuality "medium"
                  scraperUsed := jsOrString profileData.scraperUsed "unknown" }
              analysis :=
                { overall_score := directResult.analysisData.overall_score
                  summary_text := directResult.analysisData.summary_text
                  type := analysisType }
              credits :=
                { used := 1
                  remaining := 0
                  actual_cost := directResult.costDetails.actual_cost } },
            Ev.scrapeCall username :: ex.2)

/-! ## Batcher, window loop and result aggregation -/

/-- Outcome of one mapped batch promise: either
`(success: true, result)` or `(success: false, profile, error)`. -/
inductive BatchOutcome where
  | ok (result : AnalysisResponse)
  | fail (profile : String) (error : String)
deriving Repr, DecidableEq

/-- The try/catch around `processProfileComplete` inside `batch.map`:
a rejection is converted to a failure record carrying the submitted
identifier and the thrown `error.message`. -/
def runPipeline (env : PipelineEnv) (analysisType : String) (profileUrl : String) :
    BatchOutcome × List Ev :=
  let res := processProfileComplete env analysisType profileUrl
  match res.1 with
  | .ok r => (.ok r, res.2)
  | .error e => (.fail profileUrl e, res.2)

/-- One window of pipelines (`Promise.all(batchPromises)`): the outcome list
keeps the order of the window, as `Promise.all` does; the event list is a
serialization of the window's concurrent external calls. -/
def processBatch (env : PipelineEnv) (analysisType : String) :
    List String → List BatchOutcome × List Ev
  | [] => ([], [])
  | p :: rest =>
    let o := runPipeline env analysisType p
    let os := processBatch env analysisType rest
    (o.1 :: os.1, o.2 ++ os.2)

/-- Whether the `batchResults.forEach` collector keeps an outcome:
`batchResult.success && batchResult.result` keeps every success (the result
object is always truthy), and `batchResult.profile && batchResult.error`
keeps a failure only when both strings are nonempty (JS truthiness). -/
def keepOutcome : BatchOutcome → Bool
  | .ok _ => true
  | .fail profile error => (profile != "") && (error != "")

/-- Per-profile error record of the bulk response. -/
structure BulkError where
  profile : String
  error : String
deriving Repr, DecidableEq

/-- Mirror of the `batchResults.forEach` pushes into the shared `results`
and `errors` arrays. -/
def collectOutcomes (acc : List AnalysisResponse × List BulkError) :
    List BatchOutcome → List AnalysisResponse × List BulkError
  | [] => acc
  | .ok r :: rest => collectOutcomes (acc.1 ++ [r], acc.2) rest
  | .fail profile error :: rest =>
    if (profile != "") && (error != "") then
      collectOutcomes (acc.1, acc.2 ++ [{ profile := profile, error := error }]) rest
    else
      collectOutcomes acc rest

/-- Mirror of the slice loop of `createSmartBatches`
(`for (i = 0; i < profiles.length; i += batchSize) batches.push(slice(i, i + batchSize))`).
The first argument is recursion fuel, always instantiated with the list
length: every iteration consumes at least one element, so the `0` fallback
is unreachable at that instantiation. -/
def chunkGo (batchSize : Nat) : Nat → List String → List (List String)
  | _, [] => []
  | 0, rest => [rest]
  | fuel + 1, x :: xs =>
    (x :: xs.take (batchSize - 1)) :: chunkGo batchSize fuel (xs.drop (batchSize - 1))

/-- Mirror of `createSmartBatches` in
`src/api/analysis/bulk-analyze.controller.ts`: window size 8 for `light`
(`batchSizes[analysisType] || 5` for anything else, unreachable past
validation). -/
def createSmartBatches (profiles : List String) (analysisType : String) :
    List (List String) :=
  let batchSize := if analysisType = "light" then 8 else 5
  chunkGo batchSize profiles.length profiles

/-- Mirror of the window loop of `handleBulkAnalyze`
(`for (batchIndex = 0; batchIndex < smartBatches.length; batchIndex++)`):
process the window, fold its outcomes into the accumulators, and emit the
1000 ms pause exactly when `batchIndex < smartBatches.length - 1`. -/
def runWindows (env : PipelineEnv) (analysisType : String) (total : Nat) :
    Nat → List (List String) → List AnalysisResponse × List BulkError →
    (List AnalysisResponse × List BulkError) × List Ev
  | _, [], acc => (acc, [])
  | i, b :: rest, acc =>
    let pr := processBatch env analysisType b
    let acc2 := collectOutcomes acc pr.1
    let pauseEvs : List Ev := if i < total - 1 then [Ev.pause] else []
    let tailRun := runWindows env analysisType total (i + 1) rest acc2
    (tailRun.1, pr.2 ++ pauseEvs ++ tailRun.2)

/-- Specification-side shape of the window trace: the event blocks of the
windows in order, with one pause between consecutive windows and none after
the last. -/
def pausedConcat : List (List Ev) → List Ev
  | [] => []
  | [evs] => evs
  | evs :: rest => evs ++ Ev.pause :: pausedConcat rest

/-! ## Ledger reconciliation -/

/-- Return shape of `calculateBulkCosts`. -/
structure BulkCosts where
  totalCredits : Nat
  totalActualCost : Rat
  avgCostPerAnalysis : Rat
  creditEfficiency : Rat
deriving Repr, DecidableEq

/-- JS `Math.round(x * 100) / 100` over exact rationals
(`Math.round` is floor of `x + 1/2`). -/
def jsRound2 (q : Rat) : Rat := ((Int.floor (q * 100 + 1 / 2) : Int) : Rat) / 100

/-- Mirror of `calculateBulkCosts` in
`src/api/analysis/bulk-analyze.controller.ts`.  Every collected result
carries a `credits` block, so `result.credits?.used || 0` is the `used`
field itself (`|| 0` maps 0 to 0 and is the identity elsewhere); likewise
for `actual_cost`. -/
def calculateBulkCosts (results : List AnalysisResponse) : BulkCosts :=
  if results.length = 0 then
    { totalCredits := 0, totalActualCost := 0
      avgCostPerAnalysis := 0, creditEfficiency := 0 }
  else
    let totalCredits : Nat := (results.map (fun r => r.credits.used)).sum
    let totalActualCost : Rat := (results.map (fun r => r.credits.actual_cost)).sum
    let avgCostPerAnalysis := (totalCredits : Rat) / (results.length : Rat)
    let creditEfficiency :=
      if 0 < totalActualCost then (totalCredits : Rat) / totalActualCost else 0
    { totalCredits := totalCredits
      totalActualCost := totalActualCost
      avgCostPerAnalysis := jsRound2 avgCostPerAnalysis
      creditEfficiency := jsRound2 creditEfficiency }

/-- Oracles for the reconciliation stage.  `incrementOutcome` is the
`fetch` of the `increment_usage_tracking` RPC for one success:
`Except.error` is a rejected promise (network failure), `Except.ok b` an
HTTP response with `ok` flag `b`.  `debitOutcome` is
`updateCreditsAndTransaction`. -/
structure ReconcileEnv where
  incrementOutcome : AnalysisResponse → Except String Bool
  debitOutcome : Except String Unit

/-- Mirror of the usage-tracking loop of `handleBulkAnalyze`: one RPC call
per collected success, in order.  A non-ok HTTP status is only logged and
the loop continues; the loop body has no try/catch, so a rejected `fetch`
propagates (second component `some e`) and abandons the remaining calls. -/
def runIncrements (renv : ReconcileEnv) :
    List AnalysisResponse → List Ev × Option String
  | [] => ([], none)
  | r :: rest =>
    match renv.incrementOutcome r with
    | .error e => ([Ev.increment r.profile.username], some e)
    | .ok _ =>
      let tailRun := runIncrements renv rest
      (Ev.increment r.profile.username :: tailRun.1, tailRun.2)

/-! ## Request validation and the bulk handler -/

/-- Outcome of `fetchUserAndCredits`. -/
structure UserResult where
  isValid : Bool
  error : String
  credits : Int
deriving Repr, DecidableEq

/-- Inbound request body (`BulkAnalysisRequest` in the shared types).
`profiles = none` models a missing or non-array field. -/
structure BulkRequest where
  profiles : Option (List String)
  analysis_type : String
  business_id : String
  user_id : String
deriving Repr, DecidableEq

/-- Outbound payload (`BulkAnalysisResult` in the shared types). -/
structure BulkAnalysisResult where
  total_requested : Nat
  successful : Nat
  failed : Nat
  results : List AnalysisResponse
  errors : List BulkError
  credits_used : Nat
  credits_remaining : Int
deriving Repr, DecidableEq

/-- HTTP-level result of the handler: a 200 with the bulk payload, or an
error response with the given status (400/402 validation, 500 for an
uncaught rejection reaching the outer catch). -/
inductive HandlerResult where
  | success (r : BulkAnalysisResult)
  | errorResp (status : Nat) (message : String)
deriving Repr, DecidableEq

/-- Mirror of `handleBulkAnalyze` in
`src/api/analysis/bulk-analyze.controller.ts`, returning the HTTP-level
result together with the trace of external side effects.  The dead local
`batchAnalyze` helper of the source is never invoked and is not modelled.
The ledger debit is attempted exactly when `creditsUsed > 0`; its outcome
(`renv.debitOutcome`) is caught and only logged, so it is not consumed by
the response.  A rejected analytics increment reaches the outer catch and
produces the generic 500 error response. -/
def handleBulkAnalyze (penv : PipelineEnv) (renv : ReconcileEnv)
    (userResult : UserResult) (body : BulkRequest) : HandlerResult × List Ev :=
  match body.profiles with
  | none => (.errorResp 400 "profiles array is required and cannot be empty", [])
  | some profiles =>
    if profiles.length = 0 then
      (.errorResp 400 "profiles array is required and cannot be empty", [])
    else if body.analysis_type ≠ "light" then
      (.errorResp 400 "analysis_type must be \"light\". Deep and XRay have been removed.", [])
    else if body.business_id = "" ∨ body.user_id = "" then
      (.errorResp 400 "business_id and user_id are required", [])
    else if 50 < profiles.length then
      (.errorResp 400 "Maximum 50 profiles per bulk request", [])
    else if userResult.isValid = false then
      (.errorResp 400 userResult.error, [Ev.userFetch])
    else if userResult.credits < (profiles.length : Int) * 1 then
      (.errorResp 402
        ("Insufficient credits. Need " ++ toString (profiles.length * 1) ++
          ", have " ++ toString userResult.credits),
        [Ev.userFetch])
    else
      let batches := createSmartBatches profiles body.analysis_type
      let windowRun := runWindows penv body.analysis_type batches.length 0 batches ([], [])
      let results := windowRun.1.1
      let errors := windowRun.1.2
      let incRun := runIncrements renv results
      match incRun.2 with
      | some e => (.errorResp 500 e, Ev.userFetch :: (windowRun.2 ++ incRun.1))
      | none =>
        let costDetails := calculateBulkCosts results
        let creditsUsed := costDetails.totalCredits
        let debitEvs : List Ev := if 0 < creditsUsed then [Ev.debit] else []
        (.success
          { total_requested := profiles.length
            successful := results.length
            failed := errors.length
            results := results
            errors := errors
            credits_used := creditsUsed
            credits_remaining := userResult.credits - creditsUsed },
          Ev.userFetch :: (windowRun.2 ++ incRun.1 ++ debitEvs))

/-! ## Helper lemmas -/

theorem chunkGo_nil (b fuel : Nat) : chunkGo b fuel [] = [] := by
  cases fuel <;> rfl

theorem chunkGo_ne_nil (b fuel : Nat) (x : String) (xs : List String) :
    chunkGo b fuel (x :: xs) ≠ [] := by
  cases fuel <;> simp [chunkGo]

theorem chunkGo_flatten (b : Nat) :
    ∀ (fuel : Nat) (l : List String), l.length ≤ fuel →
      (chunkGo b fuel l).flatten = l := by
  intro fuel
  induction fuel with
  | zero =>
    intro l hl
    have hnil : l = [] := List.length_eq_zero.mp (Nat.le_zero.mp hl)
    subst hnil; rfl
  | succ n ih =>
    intro l hl
    cases l with
    | nil => rfl
    | cons x xs =>
      simp only [List.length_cons] at hl
      simp only [chunkGo, List.flatten_cons]
      rw [ih (xs.drop (b - 1)) (by simp only [List.length_drop]; omega)]
      rw [List.cons_append, List.take_append_drop]

theorem chunkGo_mem_length (b : Nat) (hb : 1 ≤ b) :
    ∀ (fuel : Nat) (l : List String), l.length ≤ fuel →
      ∀ c ∈ chunkGo b fuel l, c ≠ [] ∧ c.length ≤ b := by
  intro fuel
  induction fuel with
  | zero =>
    intro l hl c hc
    have hnil : l = [] := List.length_eq_zero.mp (Nat.le_zero.mp hl)
    subst hnil; simp [chunkGo] at hc
  | succ n ih =>
    intro l hl c hc
    cases l with
    | nil => simp [chunkGo] at hc
    | cons x xs =>
      simp only [List.length_cons] at hl
      simp only [chunkGo, List.mem_cons] at hc
      rcases hc with rfl | hc
      · refine ⟨by simp, ?_⟩
        simp only [List.length_cons, List.length_take]
        omega
      · exact ih (xs.drop (b - 1)) (by simp only [List.length_drop]; omega) c hc

theorem chunkGo_dropLast_length (b : Nat) (hb : 1 ≤ b) :
    ∀ (fuel : Nat) (l : List String), l.length ≤ fuel →
      ∀ c ∈ (chunkGo b fuel l).dropLast, c.length = b := by
  intro fuel
  induction fuel with
  | zero =>
    intro l hl c hc
    have hnil : l = [] := List.length_eq_zero.mp (Nat.le_zero.mp hl)
    subst hnil; simp [chunkGo] at hc
  | succ n ih =>
    intro l hl c hc
    cases l with
    | nil => simp [chunkGo] at hc
    | cons x xs =>
      simp only [List.length_cons] at hl
      simp only [chunkGo] at hc
      cases hrest : chunkGo b n (xs.drop (b - 1)) with
      | nil => rw [hrest] at hc; simp at hc
      | cons y ys =>
        rw [hrest] at hc
        rw [List.dropLast_cons_of_ne_nil (List.cons_ne_nil y ys)] at hc
        rcases List.mem_cons.mp hc with rfl | hc2
        · have hdrop : xs.drop (b - 1) ≠ [] := by
            intro hd
            rw [hd, chunkGo_nil] at hrest
            exact List.noConfusion hrest
          have hlen : b - 1 ≤ xs.length := by
            by_contra hcon
            apply hdrop
            rw [List.drop_eq_nil_iff]
            omega
          simp only [List.length_cons, List.length_take]
          omega
        · have hrec := ih (xs.drop (b - 1)) (by simp only [List.length_drop]; omega)
          rw [hrest] at hrec
          exact hrec c hc2

theorem collectOutcomes_append (acc : List AnalysisResponse × List BulkError)
    (o1 o2 : List BatchOutcome) :
    collectOutcomes acc (o1 ++ o2) = collectOutcomes (collectOutcomes acc o1) o2 := by
  induction o1 generalizing acc with
  | nil => rfl
  | cons o rest ih =>
    cases o with
    | ok r =>
      simp only [List.cons_append, collectOutcomes]
      exact ih _
    | fail p e =>
      simp only [List.cons_append, collectOutcomes]
      split <;> exact ih _

theorem collectOutcomes_length (outs : List BatchOutcome) :
    ∀ acc, (∀ o ∈ outs, keepOutcome o = true) →
      (collectOutcomes acc outs).1.length + (collectOutcomes acc outs).2.length
        = acc.1.length + acc.2.length + outs.length := by
  induction outs with
  | nil => intro acc _; simp [collectOutcomes]
  | cons o rest ih =>
    intro acc h
    cases o with
    | ok r =>
      have hrec := ih (acc.1 ++ [r], acc.2) (fun o ho => h o (List.mem_cons_of_mem _ ho))
      simp only [collectOutcomes]
      simp only [hrec, List.length_append, List.length_cons, List.length_nil]
      omega
    | fail p e =>
      have hk : ((p != "") && (e != "")) = true := h _ (List.mem_cons_self _ _)
      have hrec := ih (acc.1, acc.2 ++ [{ profile := p, error := e }])
        (fun o ho => h o (List.mem_cons_of_mem _ ho))
      simp only [collectOutcomes, if_pos hk]
      simp only [hrec, List.length_append, List.length_cons, List.length_nil]
      omega

theorem collectOutcomes_mem (outs : List BatchOutcome) :
    ∀ acc r, r ∈ (collectOutcomes acc outs).1 → r ∈ acc.1 ∨ BatchOutcome.ok r ∈ outs := by
  induction outs with
  | nil => intro acc r h; exact Or.inl h
  | cons o rest ih =>
    intro acc r h
    cases o with
    | ok r2 =>
      simp only [collectOutcomes] at h
      rcases ih _ r h with h2 | h2
      · rcases List.mem_append.mp h2 with h3 | h3
        · exact Or.inl h3
        · right
          simp only [List.mem_singleton] at h3
          subst h3
          exact List.mem_cons_self _ _
      · exact Or.inr (List.mem_cons_of_mem _ h2)
    | fail p e =>
      simp only [collectOutcomes] at h
      split at h
      · rcases ih _ r h with h2 | h2
        · exact Or.inl h2
        · exact Or.inr (List.mem_cons_of_mem _ h2)
      · rcases ih _ r h with h2 | h2
        · exact Or.inl h2
        · exact Or.inr (List.mem_cons_of_mem _ h2)

theorem processBatch_fst (env : PipelineEnv) (t : String) (batch : List String) :
    (processBatch env t batch).1 = batch.map (fun p => (runPipeline env t p).1) := by
  induction batch with
  | nil => rfl
  | cons p rest ih =>
    simp only [processBatch, List.map_cons]
    rw [ih]

theorem runWindows_fst (env : PipelineEnv) (t : String) (total : Nat) :
    ∀ (batches : List (List String)) (i : Nat) acc,
      (runWindows env t total i batches acc).1 =
        collectOutcomes acc (batches.flatten.map (fun p => (runPipeline env t p).1)) := by
  intro batches
  induction batches with
  | nil => intro i acc; rfl
  | cons bb rest ih =>
    intro i acc
    simp only [runWindows, List.flatten_cons, List.map_append]
    rw [collectOutcomes_append, ih, processBatch_fst]

theorem runWindows_cons (env : PipelineEnv) (t : String) (total i : Nat)
    (b : List String) (rest : List (List String))
    (acc : List AnalysisResponse × List BulkError) :
    runWindows env t total i (b :: rest) acc =
      ((runWindows env t total (i + 1) rest (collectOutcomes acc (processBatch env t b).1)).1,
        (processBatch env t b).2 ++ (if i < total - 1 then [Ev.pause] else []) ++
          (runWindows env t total (i + 1) rest (collectOutcomes acc (processBatch env t b).1)).2) :=
  rfl

theorem runWindows_snd (env : PipelineEnv) (t : String) (total : Nat) :
    ∀ (batches : List (List String)) (i : Nat) acc,
      i + batches.length = total →
      (runWindows env t total i batches acc).2 =
        pausedConcat (batches.map (fun w => (processBatch env t w).2)) := by
  intro batches
  induction batches with
  | nil => intro i acc _; rfl
  | cons bb rest ih =>
    intro i acc h
    rw [runWindows_cons]
    cases rest with
    | nil =>
      have hni : ¬ i < total - 1 := by
        simp only [List.length_cons, List.length_nil] at h; omega
      rw [if_neg hni]
      simp only [Prod.snd]
      simp [runWindows, pausedConcat]
    | cons b2 rest2 =>
      have hi : i < total - 1 := by
        simp only [List.length_cons] at h; omega
      rw [if_pos hi]
      simp only [Prod.snd]
      rw [ih (i + 1) (collectOutcomes acc (processBatch env t bb).1)
        (by simp only [List.length_cons] at h ⊢; omega)]
      simp only [List.map_cons, pausedConcat]
      simp [List.append_assoc]

theorem runIncrements_congr (renv renv2 : ReconcileEnv)
    (h : renv.incrementOutcome = renv2.incrementOutcome) (l : List AnalysisResponse) :
    runIncrements renv l = runIncrements renv2 l := by
  induction l with
  | nil => rfl
  | cons r rest ih =>
    simp only [runIncrements, h, ih]

theorem runIncrements_noThrow (renv : ReconcileEnv)
    (h : ∀ r e, renv.incrementOutcome r ≠ .error e) (l : List AnalysisResponse) :
    runIncrements renv l = (l.map (fun r => Ev.increment r.profile.username), none) := by
  induction l with
  | nil => rfl
  | cons r rest ih =>
    simp only [runIncrements]
    cases hr : renv.incrementOutcome r with
    | error e => exact absurd hr (h r e)
    | ok b => simp only [ih, List.map_cons]

theorem processProfileComplete_credits_used (env : PipelineEnv) (t : String)
    (url : String) (r : AnalysisResponse)
    (h : (processProfileComplete env t url).1 = .ok r) : r.credits.used = 1 := by
  cases hx : env.extractUsername url with
  | error e => simp [processProfileComplete, hx] at h
  | ok username =>
    cases hs : env.scrape username with
    | error e => simp [processProfileComplete, hx, hs] at h
    | ok pd =>
      by_cases ht : t = "light"
      · subst ht
        cases he : (executeLight env pd).1 with
        | error e => simp [processProfileComplete, hx, hs, he] at h
        | ok dr =>
          simp [processProfileComplete, hx, hs, he] at h
          rw [← h]
      · simp [processProfileComplete, hx, hs, ht] at h

theorem runPipeline_ok (env : PipelineEnv) (t p : String) (r : AnalysisResponse)
    (h : (runPipeline env t p).1 = .ok r) :
    (processProfileComplete env t p).1 = .ok r := by
  simp only [runPipeline] at h
  cases hp : (processProfileComplete env t p).1 with
  | ok r2 => rw [hp] at h; simp at h; rw [h]
  | error e => rw [hp] at h; simp at h

theorem sum_map_used_eq_length (l : List AnalysisResponse)
    (h : ∀ r ∈ l, r.credits.used = 1) :
    (l.map (fun r => r.credits.used)).sum = l.length := by
  induction l with
  | nil => rfl
  | cons r rest ih =>
    simp only [List.map_cons, List.sum_cons, List.length_cons,
      h r (List.mem_cons_self _ _), ih (fun x hx => h x (List.mem_cons_of_mem _ hx))]
    omega

/-- Payload the handler returns on its success path, as a function of the
pipeline environment, the pre-flight user record and the validated profile
list (the reconcile oracles do not occur: they cannot influence it). -/
def bulkPayload (penv : PipelineEnv) (u : UserResult) (profiles : List String) :
    BulkAnalysisResult :=
  let batches := createSmartBatches profiles "light"
  let wr := runWindows penv "light" batches.length 0 batches ([], [])
  { total_requested := profiles.length
    successful := wr.1.1.length
    failed := wr.1.2.length
    results := wr.1.1
    errors := wr.1.2
    credits_used := (calculateBulkCosts wr.1.1).totalCredits
    credits_remaining := u.credits - (calculateBulkCosts wr.1.1).totalCredits }

/-- Trace the handler emits on its success path. -/
def bulkTrace (penv : PipelineEnv) (renv : ReconcileEnv) (profiles : List String) :
    List Ev :=
  let batches := createSmartBatches profiles "light"
  let wr := runWindows penv "light" batches.length 0 batches ([], [])
  let inc := runIncrements renv wr.1.1
  Ev.userFetch :: (wr.2 ++ inc.1 ++
    (if 0 < (calculateBulkCosts wr.1.1).totalCredits then [Ev.debit] else []))

theorem handler_success_pair (penv : PipelineEnv) (renv : ReconcileEnv)
    (u : UserResult) (body : BulkRequest) (r : BulkAnalysisResult)
    (h : (handleBulkAnalyze penv renv u body).1 = .success r) :
    ∃ profiles, body.profiles = some profiles ∧ body.analysis_type = "light" ∧
      handleBulkAnalyze penv renv u body =
        (.success (bulkPayload penv u profiles), bulkTrace penv renv profiles) := by
  cases hp : body.profiles with
  | none => rw [handleBulkAnalyze, hp] at h; simp at h
  | some profiles =>
    rw [handleBulkAnalyze, hp] at h
    simp only [] at h
    by_cases h1 : profiles.length = 0
    · rw [if_pos h1] at h; simp at h
    rw [if_neg h1] at h
    by_cases h2 : body.analysis_type ≠ "light"
    · rw [if_pos h2] at h; simp at h
    rw [if_neg h2] at h
    have h2x : body.analysis_type = "light" := not_not.mp h2
    by_cases h3 : body.business_id = "" ∨ body.user_id = ""
    · rw [if_pos h3] at h; simp at h
    rw [if_neg h3] at h
    by_cases h4 : 50 < profiles.length
    · rw [if_pos h4] at h; simp at h
    rw [if_neg h4] at h
    by_cases h5 : u.isValid = false
    · rw [if_pos h5] at h; simp at h
    rw [if_neg h5] at h
    by_cases h6 : u.credits < (profiles.length : Int) * 1
    · rw [if_pos h6] at h; simp at h
    rw [if_neg h6] at h
    rw [h2x] at h
    cases hInc : (runIncrements renv (runWindows penv "light"
        (createSmartBatches profiles "light").length 0
        (createSmartBatches profiles "light") ([], [])).1.1).2 with
    | some e => rw [hInc] at h; simp at h
    | none =>
      refine ⟨profiles, rfl, h2x, ?_⟩
      rw [handleBulkAnalyze, hp]
      simp only []
      rw [if_neg h1, if_neg h2, if_neg h3, if_neg h4, if_neg h5, if_neg h6, h2x]
      rw [hInc]
      rfl

theorem handler_success_inv (penv : PipelineEnv) (renv : ReconcileEnv)
    (u : UserResult) (body : BulkRequest) (r : BulkAnalysisResult)
    (h : (handleBulkAnalyze penv renv u body).1 = .success r) :
    ∃ profiles, body.profiles = some profiles ∧ body.analysis_type = "light" ∧
      r = bulkPayload penv u profiles := by
  obtain ⟨profiles, hp, ht, hpair⟩ := handler_success_pair penv renv u body r h
  refine ⟨profiles, hp, ht, ?_⟩
  have h1 : (handleBulkAnalyze penv renv u body).1
      = .success (bulkPayload penv u profiles) := by rw [hpair]
  rw [h] at h1
  exact (HandlerResult.success.injEq _ _).mp h1

theorem handler_renv_congr (penv : PipelineEnv) (renv renv2 : ReconcileEnv)
    (u : UserResult) (body : BulkRequest)
    (hio : renv.incrementOutcome = renv2.incrementOutcome) :
    handleBulkAnalyze penv renv u body = handleBulkAnalyze penv renv2 u body := by
  simp only [handleBulkAnalyze]
  have hrw : ∀ l, runIncrements renv l = runIncrements renv2 l :=
    fun l => runIncrements_congr renv renv2 hio l
  simp only [hrw]

/-! ## Claim theorems -/

/-- C7: the pre-screen gate rejects with score 15 when the account is private
with fewer than 1000 followers; otherwise rejects with score 0 when the
follower count is 0; otherwise rejects with score 20 when the
follower-to-following quotient is below 1/10 while the follower count exceeds
1000; otherwise lets the profile proceed (`shouldProcess = true`).  Rules are
tried in this order and the first match wins. -/
theorem preScreen_gate_rules (p : ProfileData) :
    (p.isPrivate ∧ p.followersCount < 1000 →
      preScreenProfile p =
        { shouldProcess := false, earlyScore := some 15,
          reason := some "Private account with low followers - no analysis possible" }) ∧
    (¬(p.isPrivate ∧ p.followersCount < 1000) → p.followersCount = 0 →
      preScreenProfile p =
        { shouldProcess := false, earlyScore := some 0,
          reason := some "Account has no followers" }) ∧
    (10 * p.followersCount < p.followingCount → 1000 < p.followersCount →
      preScreenProfile p =
        { shouldProcess := false, earlyScore := some 20,
          reason := some "Suspicious follow ratio indicates bot/spam account" }) ∧
    (¬(p.isPrivate ∧ p.followersCount < 1000) → p.followersCount ≠ 0 →
      ¬(10 * p.followersCount < p.followingCount ∧ 1000 < p.followersCount) →
      preScreenProfile p = { shouldProcess := true, earlyScore := none, reason := none }) := by
  refine ⟨?_, ?_, ?_, ?_⟩
  · intro h
    simp only [preScreenProfile, if_pos h]
  · intro h1 h2
    simp only [preScreenProfile, if_neg h1, if_pos h2]
  · intro h1 h2
    have hn1 : ¬(p.isPrivate ∧ p.followersCount < 1000) := by
      rintro ⟨_, hlt⟩; omega
    have hn2 : ¬ p.followersCount = 0 := by omega
    have h0 : 0 < p.followingCount := by omega
    have hcond : 0 < p.followingCount ∧ 10 * p.followersCount < p.followingCount
        ∧ 1000 < p.followersCount := ⟨h0, h1, h2⟩
    simp only [preScreenProfile, if_neg hn1, if_neg hn2, if_pos hcond]
  · intro h1 h2 h3
    have hn3 : ¬(0 < p.followingCount ∧ 10 * p.followersCount < p.followingCount
        ∧ 1000 < p.followersCount) := by
      rintro ⟨_, ha, hb⟩; exact h3 ⟨ha, hb⟩
    simp only [preScreenProfile, if_neg h1, if_neg h2, if_neg hn3]

theorem calculateBulkCosts_totalCredits (results : List AnalysisResponse)
    (h : ∀ x ∈ results, x.credits.used = 1) :
    (calculateBulkCosts results).totalCredits = results.length := by
  by_cases hlen : results.length = 0
  · simp [calculateBulkCosts, hlen]
  · simp only [calculateBulkCosts, if_neg hlen]
    exact sum_map_used_eq_length results h

/-! ## Concrete fixtures for witnesses and counterexamples -/

/-- Public profile with healthy attributes. -/
def samplePublicProfile : ProfileData :=
  { username := "alice", displayName := "Alice", bio := "hi", followersCount := 5000,
    followingCount := 300, postsCount := 12, isVerified := true, isPrivate := false,
    profilePicUrl := "", externalUrl := "", scraperUsed := some "apify",
    dataQuality := some "high" }

/-- Pipeline environment whose oracles all succeed and whose AI content
strict-decodes to score 88. -/
def happyPenv : PipelineEnv :=
  { extractUsername := fun u => .ok u
    scrape := fun _ => .ok samplePublicProfile
    aiCall := fun _ => .ok
      { content := "c1", total_cost := 0, input_tokens := 10, output_tokens := 5,
        model_used := "gpt-5-nano" }
    jsonParse := fun s =>
      if s = "c1" then some { overall_score := 88, summary_text := "great fit" } else none
    now := 0 }

/-- Reconcile oracles that always succeed. -/
def reconcileOk : ReconcileEnv :=
  { incrementOutcome := fun _ => .ok true, debitOutcome := .ok () }

/-- Reconcile oracles whose ledger debit rejects. -/
def reconcileDebitFail : ReconcileEnv :=
  { incrementOutcome := fun _ => .ok true, debitOutcome := .error "ledger down" }

/-- Valid pre-flight user with 10 credits. -/
def userOk : UserResult := { isValid := true, error := "", credits := 10 }

/-- Valid one-profile bulk request. -/
def requestOne : BulkRequest :=
  { profiles := some ["alice"], analysis_type := "light", business_id := "biz-1",
    user_id := "user-1" }

/-- The per-profile response the happy environment produces for "alice". -/
def sampleResponse : AnalysisResponse :=
  { run_id := "bulk-0-alice"
    profile := { username := "alice", displayName := "Alice", followersCount := 5000,
                 isVerified := true, profilePicUrl := "", dataQuality := "high",
                 scraperUsed := "apify" }
    analysis := { overall_score := 88, summary_text := "great fit", type := "light" }
    credits := { used := 1, remaining := 0, actual_cost := 0 } }

/-- The bulk payload the happy environment produces for `requestOne`. -/
def sampleBulkResult : BulkAnalysisResult :=
  { total_requested := 1, successful := 1, failed := 0,
    results := [sampleResponse], errors := [], credits_used := 1, credits_remaining := 9 }

/-- Concrete private low-follower profile exercising the first pre-screen
rule. -/
def c7Profile : ProfileData :=
  { username := "smallprivate", displayName := "Small", bio := "", followersCount := 500,
    followingCount := 100, postsCount := 3, isVerified := false, isPrivate := true,
    profilePicUrl := "", externalUrl := "", scraperUsed := none, dataQuality := none }

/-- Witness for C7 at a private account with 500 followers. -/
theorem preScreen_gate_rules_witness :
    preScreenProfile c7Profile =
      { shouldProcess := false, earlyScore := some 15,
        reason := some "Private account with low followers - no analysis possible" } :=
  (preScreen_gate_rules c7Profile).1 (by constructor <;> decide)

/-- Pipeline environment whose scrape rejects with an empty error message
(`new Error("")` from the external scraper). -/
def emptyMsgPenv : PipelineEnv :=
  { extractUsername := fun u => .ok u
    scrape := fun _ => .error ""
    aiCall := fun _ => .error "unreachable"
    jsonParse := fun _ => none
    now := 0 }

/-- C1 (counterexample): a submitted identifier whose pipeline rejection
carries an empty `error.message` is dropped by the collector's truthiness
check `batchResult.profile && batchResult.error`, so the response has
`successful = 0` and `failed = 0` against `total_requested = 1`, and
`successful + failed ≠ total_requested`. -/
theorem bulk_partition_counterexample :
    (handleBulkAnalyze emptyMsgPenv reconcileOk userOk requestOne).1 =
      .success { total_requested := 1, successful := 0, failed := 0,
                 results := [], errors := [], credits_used := 0, credits_remaining := 10 }
      ∧ (0 : Nat) + 0 ≠ 1 :=
  ⟨by decide, by decide⟩

/-- C1 (amended): for every bulk request that passes validation and receives
a success response, provided every per-profile failure carries a nonempty
identifier and a nonempty error message (equivalently, the truthiness filter
keeps every outcome), each submitted identifier contributes exactly one
outcome and the response satisfies `successful + failed = total_requested`.
A failure whose identifier or message is the empty string is silently
dropped from both lists. -/
theorem bulk_partition_amended (penv : PipelineEnv) (renv : ReconcileEnv)
    (u : UserResult) (body : BulkRequest) (profiles : List String)
    (r : BulkAnalysisResult)
    (hp : body.profiles = some profiles)
    (hkeep : ∀ p ∈ profiles, keepOutcome (runPipeline penv "light" p).1 = true)
    (h : (handleBulkAnalyze penv renv u body).1 = .success r) :
    r.successful + r.failed = r.total_requested := by
  obtain ⟨profiles2, hp2, ht, hr⟩ := handler_success_inv penv renv u body r h
  rw [hp] at hp2
  injection hp2 with he
  subst he
  subst hr
  simp only [bulkPayload]
  rw [runWindows_fst]
  have hflat : (createSmartBatches profiles "light").flatten = profiles := by
    have hcsb : createSmartBatches profiles "light" = chunkGo 8 profiles.length profiles := by
      simp [createSmartBatches]
    rw [hcsb]
    exact chunkGo_flatten 8 profiles.length profiles (le_refl _)
  have hkeep2 : ∀ o ∈ ((createSmartBatches profiles "light").flatten.map
      (fun p => (runPipeline penv "light" p).1)), keepOutcome o = true := by
    intro o ho
    rcases List.mem_map.mp ho with ⟨p, hpmem, hfo⟩
    rw [← hfo]
    exact hkeep p (by rwa [hflat] at hpmem)
  have hcnt := collectOutcomes_length _ ([], []) hkeep2
  simp only [List.length_nil] at hcnt
  rw [hcnt]
  simp [List.length_map, hflat]

/-- Witness for C1 (amended) at a healthy one-profile request. -/
theorem bulk_partition_amended_witness :
    requestOne.profiles = some ["alice"] ∧
    (handleBulkAnalyze happyPenv reconcileOk userOk requestOne).1 =
      .success sampleBulkResult ∧
    sampleBulkResult.successful + sampleBulkResult.failed
      = sampleBulkResult.total_requested :=
  ⟨rfl, by decide,
    bulk_partition_amended happyPenv reconcileOk userOk requestOne ["alice"]
      sampleBulkResult rfl (by decide) (by decide)⟩

/-- C2: for every bulk request that receives a success response,
`credits_used = successful * 1`: each collected success carries the unit
cost 1 and failed outcomes never contribute to `credits_used`. -/
theorem bulk_credits_used_eq_successful (penv : PipelineEnv) (renv : ReconcileEnv)
    (u : UserResult) (body : BulkRequest) (r : BulkAnalysisResult)
    (h : (handleBulkAnalyze penv renv u body).1 = .success r) :
    r.credits_used = r.successful * 1 := by
  obtain ⟨profiles, hp, ht, hr⟩ := handler_success_inv penv renv u body r h
  subst hr
  simp only [bulkPayload]
  have hall : ∀ x ∈ (runWindows penv "light"
      (createSmartBatches profiles "light").length 0
      (createSmartBatches profiles "light") ([], [])).1.1, x.credits.used = 1 := by
    intro x hx
    rw [runWindows_fst] at hx
    rcases collectOutcomes_mem _ ([], []) x hx with h0 | h0
    · simp at h0
    · rcases List.mem_map.mp h0 with ⟨p, _, hfp⟩
      exact processProfileComplete_credits_used penv "light" p x
        (runPipeline_ok penv "light" p x hfp)
  rw [calculateBulkCosts_totalCredits _ hall]
  omega

/-- Witness for C2 at a healthy one-profile request. -/
theorem bulk_credits_used_eq_successful_witness :
    (handleBulkAnalyze happyPenv reconcileOk userOk requestOne).1 =
      .success sampleBulkResult ∧
    sampleBulkResult.credits_used = sampleBulkResult.successful * 1 :=
  ⟨by decide,
    bulk_credits_used_eq_successful happyPenv reconcileOk userOk requestOne
      sampleBulkResult (by decide)⟩

/-- C8: for every identifier sequence and the supported mode, the Batcher
yields consecutive non-overlapping windows whose concatenation is the input,
each window nonempty of size at most 8, every window but the last of size
exactly 8, the empty input yields zero windows, and the window loop's trace
is the window blocks in order with one pause between consecutive windows and
none after the last (windows execute strictly sequentially). -/
theorem batcher_window_properties (penv : PipelineEnv) (profiles : List String) :
    (createSmartBatches profiles "light").flatten = profiles ∧
    (∀ w ∈ createSmartBatches profiles "light", w ≠ [] ∧ w.length ≤ 8) ∧
    (∀ w ∈ (createSmartBatches profiles "light").dropLast, w.length = 8) ∧
    createSmartBatches ([] : List String) "light" = [] ∧
    (∀ acc, (runWindows penv "light" (createSmartBatches profiles "light").length 0
        (createSmartBatches profiles "light") acc).2 =
      pausedConcat ((createSmartBatches profiles "light").map
        (fun w => (processBatch penv "light" w).2))) := by
  have hcsb : createSmartBatches profiles "light" = chunkGo 8 profiles.length profiles := by
    simp [createSmartBatches]
  refine ⟨?_, ?_, ?_, rfl, ?_⟩
  · rw [hcsb]; exact chunkGo_flatten 8 profiles.length profiles (le_refl _)
  · rw [hcsb]; exact chunkGo_mem_length 8 (by omega) profiles.length profiles (le_refl _)
  · rw [hcsb]; exact chunkGo_dropLast_length 8 (by omega) profiles.length profiles (le_refl _)
  · intro acc
    exact runWindows_snd penv "light" _ _ 0 acc (by simp)

/-- Ten identifiers: two windows, of sizes 8 and 2. -/
def tenProfiles : List String :=
  ["p1", "p2", "p3", "p4", "p5", "p6", "p7", "p8", "p9", "p10"]

/-- Witness for C8 at ten identifiers. -/
theorem batcher_window_properties_witness :
    createSmartBatches tenProfiles "light" =
      [["p1", "p2", "p3", "p4", "p5", "p6", "p7", "p8"], ["p9", "p10"]] ∧
    (createSmartBatches tenProfiles "light").flatten = tenProfiles ∧
    (["p9", "p10"] : List String) ≠ [] ∧ (["p9", "p10"] : List String).length ≤ 8 :=
  ⟨by decide, (batcher_window_properties happyPenv tenProfiles).1,
    (batcher_window_properties happyPenv tenProfiles).2.1 ["p9", "p10"] (by decide)⟩

/-- C9: every bulk request with a missing or empty profile list, more than
50 profiles, an analysis_type other than "light", or a missing
business/user reference is rejected with a 400 response and an empty
side-effect trace: no profile fetch, no scoring call, no ledger debit and
no analytics increment happens (not even the user lookup). -/
theorem bulk_validation_rejects_early (penv : PipelineEnv) (renv : ReconcileEnv)
    (u : UserResult) (body : BulkRequest)
    (h : body.profiles = none
      ∨ (∃ ps, body.profiles = some ps ∧ (ps.length = 0 ∨ 50 < ps.length))
      ∨ body.analysis_type ≠ "light" ∨ body.business_id = "" ∨ body.user_id = "") :
    (∃ msg, (handleBulkAnalyze penv renv u body).1 = .errorResp 400 msg)
      ∧ (handleBulkAnalyze penv renv u body).2 = [] := by
  cases hp : body.profiles with
  | none =>
    rw [handleBulkAnalyze, hp]
    exact ⟨⟨_, rfl⟩, rfl⟩
  | some ps =>
    rw [handleBulkAnalyze, hp]
    simp only []
    by_cases h1 : ps.length = 0
    · rw [if_pos h1]; exact ⟨⟨_, rfl⟩, rfl⟩
    rw [if_neg h1]
    by_cases h2 : body.analysis_type ≠ "light"
    · rw [if_pos h2]; exact ⟨⟨_, rfl⟩, rfl⟩
    rw [if_neg h2]
    by_cases h3 : body.business_id = "" ∨ body.user_id = ""
    · rw [if_pos h3]; exact ⟨⟨_, rfl⟩, rfl⟩
    rw [if_neg h3]
    by_cases h4 : 50 < ps.length
    · rw [if_pos h4]; exact ⟨⟨_, rfl⟩, rfl⟩
    exfalso
    rcases h with h | ⟨ps2, hps2, hlen⟩ | h | h | h
    · rw [hp] at h; exact Option.noConfusion h
    · rw [hp] at hps2
      injection hps2 with he
      subst he
      rcases hlen with hl | hl
      · exact h1 hl
      · exact h4 hl
    · exact h2 h
    · exact h3 (Or.inl h)
    · exact h3 (Or.inr h)

/-- Oversized request: 51 identifiers. -/
def oversizedRequest : BulkRequest :=
  { profiles := some (List.replicate 51 "u"), analysis_type := "light",
    business_id := "biz-1", user_id := "user-1" }

/-- Witness for C9 at 51 submitted identifiers. -/
theorem bulk_validation_rejects_early_witness :
    (∃ msg, (handleBulkAnalyze happyPenv reconcileOk userOk oversizedRequest).1 =
      .errorResp 400 msg)
      ∧ (handleBulkAnalyze happyPenv reconcileOk userOk oversizedRequest).2 = [] :=
  bulk_validation_rejects_early happyPenv reconcileOk userOk oversizedRequest
    (Or.inr (Or.inl ⟨List.replicate 51 "u", rfl, Or.inr (by decide)⟩))

/-- C10: for every bulk request that receives a success response,
`credits_remaining` equals the pre-flight balance read before any
processing minus `credits_used`, and the entire handler output is unchanged
by the ledger-debit outcome (the balance is never re-read after the debit,
whose result is caught and only logged). -/
theorem bulk_credits_remaining_preflight (penv : PipelineEnv)
    (renv renv2 : ReconcileEnv) (u : UserResult) (body : BulkRequest)
    (r : BulkAnalysisResult)
    (hio : renv.incrementOutcome = renv2.incrementOutcome)
    (h : (handleBulkAnalyze penv renv u body).1 = .success r) :
    r.credits_remaining = u.credits - (r.credits_used : Int) ∧
    handleBulkAnalyze penv renv2 u body = handleBulkAnalyze penv renv u body := by
  refine ⟨?_, (handler_renv_congr penv renv renv2 u body hio).symm⟩
  obtain ⟨profiles, hp, ht, hr⟩ := handler_success_inv penv renv u body r h
  subst hr
  rfl

/-- Witness for C10: same response whether the ledger debit succeeds or
rejects. -/
theorem bulk_credits_remaining_preflight_witness :
    sampleBulkResult.credits_remaining
      = userOk.credits - (sampleBulkResult.credits_used : Int) ∧
    handleBulkAnalyze happyPenv reconcileDebitFail userOk requestOne =
      handleBulkAnalyze happyPenv reconcileOk userOk requestOne :=
  bulk_credits_remaining_preflight happyPenv reconcileOk reconcileDebitFail userOk
    requestOne sampleBulkResult rfl (by decide)

/-- Pipeline environment that fetches the private low-follower profile and
whose AI call succeeds, strict-decoding to score 88. -/
def privatePenv : PipelineEnv :=
  { extractUsername := fun u => .ok u
    scrape := fun _ => .ok c7Profile
    aiCall := fun _ => .ok
      { content := "c1", total_cost := 0, input_tokens := 1, output_tokens := 1,
        model_used := "gpt-5-nano" }
    jsonParse := fun s =>
      if s = "c1" then some { overall_score := 88, summary_text := "ai verdict" } else none
    now := 0 }

/-- C3 (counterexample): in the bulk pipeline, a profile whose fetched
attributes fire the pre-screen rule (private, 500 followers, heuristic
score 15) is NOT short-circuited: the ScoringProvider is invoked anyway and
the profile is finalized with the provider score 88, not the heuristic 15. -/
theorem bulk_prescreen_counterexample :
    (preScreenProfile c7Profile).shouldProcess = false ∧
    (preScreenProfile c7Profile).earlyScore = some 15 ∧
    Ev.aiCall "smallprivate" ∈
      (processProfileComplete privatePenv "light" "smallprivate").2 ∧
    ((processProfileComplete privatePenv "light" "smallprivate").1.toOption.map
      (fun r => r.analysis.overall_score)) = some (88 : Int) ∧
    (88 : Int) ≠ 15 :=
  ⟨by decide, by decide, by decide, by decide, by decide⟩

/-- C3 (amended): the bulk pipeline applies no pre-screen gate at all.  For
every profile whose username extraction and fetch succeed, the bulk light
pipeline invokes the ScoringProvider regardless of the fetched attributes —
in particular also when a pre-screen rule fires.  The `preScreenProfile`
gate is consulted only by the single-profile analysis path, which is outside
the bulk controller. -/
theorem bulk_pipeline_always_scores (penv : PipelineEnv) (url username : String)
    (pd : ProfileData)
    (hx : penv.extractUsername url = .ok username)
    (hs : penv.scrape username = .ok pd) :
    Ev.aiCall pd.username ∈ (processProfileComplete penv "light" url).2 := by
  have hev : (executeLight penv pd).2 = [Ev.aiCall pd.username] := by
    cases ha : penv.aiCall pd <;> simp [executeLight, ha]
  cases he : (executeLight penv pd).1 with
  | error e => simp [processProfileComplete, hx, hs, he, hev]
  | ok dr => simp [processProfileComplete, hx, hs, he, hev]

/-- Witness for C3 (amended): the pre-screened private profile still reaches
the ScoringProvider. -/
theorem bulk_pipeline_always_scores_witness :
    Ev.aiCall "smallprivate" ∈
      (processProfileComplete privatePenv "light" "smallprivate").2 :=
  bulk_pipeline_always_scores privatePenv "smallprivate" "smallprivate" c7Profile rfl rfl

/-- Pipeline environment whose AI output is unparsable garbage: the strict
decode fails and neither fallback regex matches. -/
def garbagePenv : PipelineEnv :=
  { extractUsername := fun u => .ok u
    scrape := fun _ => .ok samplePublicProfile
    aiCall := fun _ => .ok
      { content := "garbage", total_cost := 0, input_tokens := 1, output_tokens := 1,
        model_used := "gpt-5-nano" }
    jsonParse := fun _ => none
    now := 0 }

/-- The default success the garbage environment produces. -/
def garbageResponse : AnalysisResponse :=
  { run_id := "bulk-0-alice"
    profile := { username := "alice", displayName := "Alice", followersCount := 5000,
                 isVerified := true, profilePicUrl := "", dataQuality := "high",
                 scraperUsed := "apify" }
    analysis := { overall_score := 0, summary_text := "Analysis completed", type := "light" }
    credits := { used := 1, remaining := 0, actual_cost := 0 } }

/-- C4 (counterexample): when the provider output fails both the strict
decode and the lenient extraction, no Failure with reason ScoringError is
recorded: the identifier lands in the results list as a default success with
score 0 and summary "Analysis completed", the errors list stays empty, and
the profile is charged one credit. -/
theorem scoring_double_failure_counterexample :
    firstScoreMatch "garbage".toList = none ∧
    firstSummaryMatch "garbage".toList = none ∧
    (handleBulkAnalyze garbagePenv reconcileOk userOk requestOne).1 =
      .success { total_requested := 1, successful := 1, failed := 0,
                 results := [garbageResponse], errors := [],
                 credits_used := 1, credits_remaining := 9 } :=
  ⟨by decide, by decide, by decide⟩

/-- C4 (amended): when the ScoringProvider's output fails both the strict
structured decode and the lenient pattern extraction, the pipeline records a
SUCCESS outcome with score 0 and summary "Analysis completed" for that
identifier — not a Failure — no exception escapes, and the rest of the batch
continues. -/
theorem scoring_double_failure_amended (penv : PipelineEnv) (url username : String)
    (pd : ProfileData) (resp : AIResponse)
    (hx : penv.extractUsername url = .ok username)
    (hs : penv.scrape username = .ok pd)
    (ha : penv.aiCall pd = .ok resp)
    (hparse : penv.jsonParse resp.content = none)
    (hscore : firstScoreMatch resp.content.toList = none)
    (hsummary : firstSummaryMatch resp.content.toList = none) :
    ∃ r, (processProfileComplete penv "light" url).1 = .ok r ∧
      r.analysis.overall_score = 0 ∧ r.analysis.summary_text = "Analysis completed" := by
  have hscore2 : firstScoreMatch resp.content.data = none := hscore
  have hsummary2 : firstSummaryMatch resp.content.data = none := hsummary
  have hex : (executeLight penv pd).1 = .ok
      { analysisData := { overall_score := 0, summary_text := "Analysis completed" }
        costDetails := { actual_cost := resp.total_cost, tokens_in := resp.input_tokens,
                         tokens_out := resp.output_tokens, model_used := resp.model_used,
                         block_type := "direct_light" } } := by
    simp [executeLight, ha, parseJsonResponse, hparse, hscore2, hsummary2]
  have hppc : (processProfileComplete penv "light" url).1 = .ok
      { run_id := "bulk-" ++ toString penv.now ++ "-" ++ username
        profile := { username := pd.username, displayName := pd.displayName,
                     followersCount := pd.followersCount, isVerified := pd.isVerified,
                     profilePicUrl := pd.profilePicUrl,
                     dataQuality := jsOrString pd.dataQuality "medium",
                     scraperUsed := jsOrString pd.scraperUsed "unknown" }
        analysis := { overall_score := 0, summary_text := "Analysis completed",
                      type := "light" }
        credits := { used := 1, remaining := 0, actual_cost := resp.total_cost } } := by
    simp [processProfileComplete, hx, hs, hex]
  exact ⟨_, hppc, rfl, rfl⟩

/-- Witness for C4 (amended) at the garbage environment. -/
theorem scoring_double_failure_amended_witness :
    ∃ r, (processProfileComplete garbagePenv "light" "alice").1 = .ok r ∧
      r.analysis.overall_score = 0 ∧ r.analysis.summary_text = "Analysis completed" :=
  scoring_double_failure_amended garbagePenv "alice" "alice" samplePublicProfile
    { content := "garbage", total_cost := 0, input_tokens := 1, output_tokens := 1,
      model_used := "gpt-5-nano" }
    rfl rfl rfl rfl (by decide) (by decide)

/-- Reconcile oracles whose analytics increment call rejects (network
failure of the `fetch`). -/
def reconcileIncThrow : ReconcileEnv :=
  { incrementOutcome := fun _ => .error "network failure", debitOutcome := .ok () }

/-- Reconcile oracles whose increments return non-ok HTTP responses and
whose ledger debit rejects. -/
def reconcileIncNotOk : ReconcileEnv :=
  { incrementOutcome := fun _ => .ok false, debitOutcome := .error "ledger down" }

/-- C5 (counterexample): the analytics loop has no try/catch, so a REJECTED
increment `fetch` propagates to the outer catch: the request returns the
generic 500 error and the already-computed successful results are lost —
the same request with a non-rejecting increment returns the full success
payload. -/
theorem reconcile_increment_throw_counterexample :
    (handleBulkAnalyze happyPenv reconcileIncThrow userOk requestOne).1 =
      .errorResp 500 "network failure" ∧
    (handleBulkAnalyze happyPenv reconcileOk userOk requestOne).1 =
      .success sampleBulkResult :=
  ⟨by decide, by decide⟩

/-- C5 (amended): a failure of the ledger debit call never alters the bulk
response, and an analytics increment that RETURNS an error status (non-ok
HTTP response) is only logged: as long as no increment call rejects, the
response is independent of the debit outcome and of the per-increment status
flags, and one increment is attempted for every collected success.  Only an
increment whose `fetch` itself rejects aborts the request with a 500 (see
the counterexample). -/
theorem reconcile_failures_nonfatal_amended (penv : PipelineEnv)
    (renv renv2 : ReconcileEnv) (u : UserResult) (body : BulkRequest)
    (h1 : ∀ r e, renv.incrementOutcome r ≠ .error e)
    (h2 : ∀ r e, renv2.incrementOutcome r ≠ .error e) :
    (handleBulkAnalyze penv renv u body).1 = (handleBulkAnalyze penv renv2 u body).1 ∧
    (∀ r, (handleBulkAnalyze penv renv u body).1 = .success r →
      ∀ res ∈ r.results, Ev.increment res.profile.username ∈
        (handleBulkAnalyze penv renv u body).2) := by
  constructor
  · simp only [handleBulkAnalyze]
    have e1 := runIncrements_noThrow renv h1
    have e2 := runIncrements_noThrow renv2 h2
    simp only [e1, e2]
  · intro r hr res hres
    obtain ⟨profiles, hp, ht, hpair⟩ := handler_success_pair penv renv u body r hr
    have hrpay : r = bulkPayload penv u profiles := by
      have hup : (handleBulkAnalyze penv renv u body).1
          = .success (bulkPayload penv u profiles) := by rw [hpair]
      rw [hr] at hup
      exact (HandlerResult.success.injEq _ _).mp hup
    subst hrpay
    simp only [bulkPayload] at hres
    rw [hpair]
    simp only [bulkTrace]
    have hinc := runIncrements_noThrow renv h1 (runWindows penv "light"
        (createSmartBatches profiles "light").length 0
        (createSmartBatches profiles "light") ([], [])).1.1
    rw [hinc]
    have hmem : Ev.increment res.profile.username ∈
        ((runWindows penv "light" (createSmartBatches profiles "light").length 0
          (createSmartBatches profiles "light") ([], [])).1.1.map
            (fun x => Ev.increment x.profile.username)) :=
      List.mem_map_of_mem _ hres
    simp [List.mem_cons, List.mem_append, hmem]

/-- Witness for C5 (amended): non-ok increment statuses and a failing debit
leave the response unchanged, and the success's increment is attempted. -/
theorem reconcile_failures_nonfatal_amended_witness :
    (handleBulkAnalyze happyPenv reconcileOk userOk requestOne).1 =
      (handleBulkAnalyze happyPenv reconcileIncNotOk userOk requestOne).1 ∧
    Ev.increment "alice" ∈ (handleBulkAnalyze happyPenv reconcileOk userOk requestOne).2 := by
  have h := reconcile_failures_nonfatal_amended happyPenv reconcileOk reconcileIncNotOk
    userOk requestOne (fun r e he => Except.noConfusion he)
    (fun r e he => Except.noConfusion he)
  exact ⟨h.1, h.2 sampleBulkResult (by decide) sampleResponse (by decide)⟩

/-- Whether `pat` occurs as a contiguous run somewhere in the list. -/
def listHasInfix (pat : List Char) : List Char → Bool
  | [] => pat.isPrefixOf []
  | c :: cs => pat.isPrefixOf (c :: cs) || listHasInfix pat cs

/-- Substring containment over raw provider output, used to state C6. -/
def containsSubstring (s pat : String) : Bool :=
  listHasInfix pat.toList s.toList

/-- C6 (counterexample): an invalid-JSON provider output that contains the
substring `"overall_score": 42` (and a `"summary_text": "..."` substring)
need not decode to 42: the fallback extracts the full leftmost digit run, so
`"overall_score": 425` — which contains that substring — decodes to 425. -/
theorem lenient_decode_counterexample :
    containsSubstring "\"summary_text\": \"ok\", \"overall_score\": 425"
      "\"overall_score\": 42" = true ∧
    containsSubstring "\"summary_text\": \"ok\", \"overall_score\": 425"
      "\"summary_text\": \"ok\"" = true ∧
    parseJsonResponse (fun _ => none) "\"summary_text\": \"ok\", \"overall_score\": 425"
      = { overall_score := 425, summary_text := "ok" } ∧
    (425 : Int) ≠ 42 :=
  ⟨by decide, by decide, by decide, by decide⟩

/-- C6 (amended): when the strict decode fails, the fallback decode yields
exactly the value of the LEFTMOST score-pattern match (42 whenever that
leftmost digit run is 42) and the leftmost summary-pattern capture; the
decode is total, and whenever the adapter call returns, the executor returns
a success — no exception reaches the caller for any input string. -/
theorem lenient_decode_amended (strictParse : String → Option AnalysisData)
    (content : String) (n : Nat) (s : String)
    (hfail : strictParse content = none)
    (hscore : firstScoreMatch content.toList = some n)
    (hsummary : firstSummaryMatch content.toList = some s) :
    parseJsonResponse strictParse content
      = { overall_score := (n : Int), summary_text := s } ∧
    (∀ (penv : PipelineEnv) (pd : ProfileData) (resp : AIResponse),
      penv.aiCall pd = .ok resp → (executeLight penv pd).1.isOk = true) := by
  have hscore2 : firstScoreMatch content.data = some n := hscore
  have hsummary2 : firstSummaryMatch content.data = some s := hsummary
  constructor
  · simp [parseJsonResponse, hfail, hscore2, hsummary2]
  · intro penv pd resp ha
    simp [executeLight, ha, Except.isOk, Except.toBool]

/-- Witness for C6 (amended) at a malformed output whose leftmost score run
is 42. -/
theorem lenient_decode_amended_witness :
    parseJsonResponse (fun _ => none)
      "not json \"overall_score\": 42 and \"summary_text\": \"fine\""
      = { overall_score := 42, summary_text := "fine" } :=
  (lenient_decode_amended (fun _ => none)
    "not json \"overall_score\": 42 and \"summary_text\": \"fine\""
    42 "fine" rfl (by decide) (by decide)).1

end Oslira
